import Mathlib

/-!
Verification of the esc-lang bytecode virtual machine and compiler
(src/src/vm.ts and src/src/compiler.ts) via a shallow embedding.

Modelling conventions, chosen to mirror the JavaScript runtime:
* Operand stacks are lists with the bottom at the head and the top at the
  end, exactly matching the order of the underlying JavaScript arrays
  (push appends, pop removes the last element).
* The frame stack is a list with the innermost (current) frame at the head.
* Tuple and List payloads are JavaScript arrays held by reference; the
  embedding stores them in an explicit heap (a list of element lists) and a
  Value carries the heap address.  Likewise a Function value carries an
  index into a function table, modelling JavaScript object identity.
* JavaScript numbers are IEEE doubles; the claims verified here do not
  depend on floating-point behaviour, so numbers are modelled as integers
  (division and modulo therefore use integer semantics).
* Out-of-range JavaScript array reads yield the value undefined; the
  embedding has an explicit undefined value for this.  Accessing a property of
  undefined throws a host TypeError, modelled by the error typeError.
* Thrown exceptions are modelled with Except; run propagates them.
-/

namespace EscLang

/-- Opcodes, one constructor per member of the Opcode enum in vm.ts
(including the members the execute switch does not handle, which fall to
the default branch there). -/
inductive Opcode where
  | PUSH | POP | ADD | SUB | MUL | DIV | LT | GT | LTE | GTE | EQ | GTEQ
  | NEQ | AND | OR | NOT | JUMP | JUMPF | JUMPT | JUMPTF | LOAD | STORE
  | CALL | RET | HALT | PRINT | INPUT | SYSCALL | DATA | INC | DEC | NEG
  | COPY | SETGL | DECLAREGL | LOADGL | NATIVE | NOP | MOD | MAKE_TUPLE
  | MAKE_LIST | SUBSCRIPT | STORE_SUBSCRIPT
deriving DecidableEq

/-- Instruction: opcode, optional integer operand, source line number. -/
structure Instruction where
  op : Opcode
  operand : Option Int
  line : Int
deriving DecidableEq

/-- Value type tags, one per member of the ValueType enum in vm.ts. -/
inductive ValueType where
  | STRING | NUMBER | BOOLEAN | FUNCTION | NATIVE | SYSCALL | TUPLE | LIST
  | NULL
deriving DecidableEq

/-- Language values.  tupleRef and listRef carry a heap address (the
identity of the payload array), funcRef an index into the function table
(the identity of the Function object).  undefined is not a language value: it
models the JavaScript undefined produced by out-of-range array reads. -/
inductive Value where
  | str (s : String)
  | num (n : Int)
  | boolean (b : Bool)
  | funcRef (i : Nat)
  | native (s : String)
  | syscall (s : String)
  | tupleRef (r : Nat)
  | listRef (r : Nat)
  | null
  | undefined
deriving DecidableEq

/-- Function objects (class Function in vm.ts): name, parameter names and
body.  Stored in the function table of the VM state; Value.funcRef points
into that table. -/
structure Func where
  name : String
  args : List String
  body : List Instruction
deriving DecidableEq

/-- Pending syscall trap record. -/
structure Syscall where
  name : String
  args : List Value
deriving DecidableEq

/-- Call frame: instruction pointer, operand stack (bottom first) and the
instruction sequence this frame executes.  The ip is an integer because
CALL creates frames with ip = -1. -/
structure CallFrame where
  ip : Int
  stack : List Value
  text : List Instruction
deriving DecidableEq

/-- VM state: constant pool, frame stack (innermost frame first), globals
(an association list mirroring the insertion-ordered Map), the heap of
tuple/list payload arrays, the function table, and the pending syscall. -/
structure VM where
  data : List Value
  frames : List CallFrame
  globals : List (String × Value)
  heap : List (List Value)
  funcs : List Func
  syscall : Option Syscall
deriving DecidableEq

/-- Status values of the VMStatus enum. -/
inductive VMStatus where
  | RUNNING | HALTED | ERROR | SYSCALL
deriving DecidableEq

/-- VM image returned by run and serialize.  The opaque serialized blob is
modelled as the state itself. -/
structure VMImage where
  state : VM
  status : VMStatus
  syscall : Option Syscall
deriving DecidableEq

/-- Error kinds thrown by the VM and the host runtime.  compilerBug also
covers the stack-underflow guard of the Stack class; typeError models the
JavaScript TypeError raised by accessing a property of undefined. -/
inductive VMError where
  | compilerBug
  | invalidType
  | divisionByZero
  | indexError
  | invalidFormat
  | functionArgumentNumberMismatch
  | nativeFunctionArgumentNumberMismatch
  | variableAlreadyDeclared
  | variableNotDeclared
  | typeError
deriving DecidableEq

/-- Modelled from the spec: the native registry entry shape (src/native.ts
is not under src/); section 6 of the spec gives arity plus an
implementation taking the source line and the argument list. -/
structure NativeInfo where
  args : Nat
  fn : Int → List Value → Except VMError Value

/-- Modelled from the spec: the syscall registry entry shape (src/syscall.ts
is not under src/); section 6 of the spec gives a syscallId and an
argument preprocessor. -/
structure SyscallInfo where
  syscallId : String
  preprocessor : List Value → Int → Except VMError (List Value)

/-- Host registries for natives and syscalls, keyed by name. -/
structure Registry where
  natives : List (String × NativeInfo)
  syscalls : List (String × SyscallInfo)

/-- Payload of a value as compared by the strict-equality operator of
JavaScript: the payload of a tuple or list is its array reference, of a
function its object reference, of native and syscall values their name
string. -/
inductive Payload where
  | pstr (s : String)
  | pnum (n : Int)
  | pbool (b : Bool)
  | pfunc (i : Nat)
  | parr (r : Nat)
  | pnull
  | pundefined
deriving DecidableEq

/-- Payload projection of a value. -/
def Value.payload : Value → Payload
  | .str s => .pstr s
  | .num n => .pnum n
  | .boolean b => .pbool b
  | .funcRef i => .pfunc i
  | .native s => .pstr s
  | .syscall s => .pstr s
  | .tupleRef r => .parr r
  | .listRef r => .parr r
  | .null => .pnull
  | .undefined => .pundefined

/-- Type tag of a value; undefined has none (reading the type property of
undefined throws in JavaScript, which execute guards against). -/
def Value.tag : Value → Option ValueType
  | .str _ => some .STRING
  | .num _ => some .NUMBER
  | .boolean _ => some .BOOLEAN
  | .funcRef _ => some .FUNCTION
  | .native _ => some .NATIVE
  | .syscall _ => some .SYSCALL
  | .tupleRef _ => some .TUPLE
  | .listRef _ => some .LIST
  | .null => some .NULL
  | .undefined => none

/-- Strict equality as computed by the EQ opcode:
a.type === b.type and b.value === a.value. -/
def jsEq (a b : Value) : Bool :=
  (a.tag == b.tag) && (b.payload == a.payload)

/-- Strict disequality as computed by the NEQ opcode:
a.type !== b.type or b.value !== a.value. -/
def jsNeq (a b : Value) : Bool :=
  (a.tag != b.tag) || (b.payload != a.payload)

/-- Truthiness of a payload, as JavaScript coerces v.value in conditions:
empty strings, zero, false, null and undefined are falsy; arrays and
function objects are truthy. -/
def truthy : Value → Bool
  | .str s => s ≠ ""
  | .num n => n ≠ 0
  | .boolean b => b
  | .funcRef _ => true
  | .native s => s ≠ ""
  | .syscall s => s ≠ ""
  | .tupleRef _ => true
  | .listRef _ => true
  | .null => false
  | .undefined => false

/-- Pop from the operand stack (class Stack): the underflow guard throws a
CompilerBug; otherwise the last element is removed and returned. -/
def stackPop (s : List Value) : Except VMError (Value × List Value) :=
  match s.getLast? with
  | none => .error .compilerBug
  | some v => .ok (v, s.dropLast)

/-- Pop n values and collect them bottom-to-top, mirroring the CALL loop
that pops each argument and unshifts it onto the argument list. -/
def popArgs : Nat → List Value → Except VMError (List Value × List Value)
  | 0, s => .ok ([], s)
  | n + 1, s => do
    let (v, s1) ← stackPop s
    let (args, s2) ← popArgs n s1
    .ok (args ++ [v], s2)

/-- Argument count taken from the operand: the CALL pop loop runs value
times; a missing or negative operand yields zero iterations. -/
def nArgs : Option Int → Nat
  | some k => k.toNat
  | none => 0

/-- Read data[operand]; out-of-range or missing indices give the
JavaScript undefined. -/
def dataGet (d : List Value) : Option Int → Value
  | some k => if k < 0 then .undefined else d.getD k.toNat .undefined
  | none => .undefined

/-- Read stack[operand] for LOAD; out-of-range gives undefined. -/
def stackIndex (s : List Value) : Option Int → Value
  | some k => if k < 0 then .undefined else s.getD k.toNat .undefined
  | none => .undefined

/-- Dereference a heap address to the payload array it holds. -/
def heapGet (h : List (List Value)) (r : Nat) : List Value :=
  h.getD r []

/-- Indexed write into a JavaScript array: in-range replaces, appending at
the length extends, beyond the length creates undefined holes. -/
def storeAt (s : List Value) (i : Nat) (v : Value) : List Value :=
  if i < s.length then s.set i v
  else s ++ List.replicate (i - s.length) Value.undefined ++ [v]

/-- Map.set on the insertion-ordered globals map: replace in place or
append. -/
def globalsSet : List (String × Value) → String → Value → List (String × Value)
  | [], k, v => [(k, v)]
  | (k2, v2) :: rest, k, v =>
    if k2 = k then (k2, v) :: rest else (k2, v2) :: globalsSet rest k v

/-- Pop two operands and require both to be numbers, the shared shape of
the binary numeric opcodes.  The first pop is the right operand.  A popped
undefined triggers the host TypeError of reading its type property;
anything not a number traps InvalidType. -/
def popNum2 (s : List Value) : Except VMError (Int × Int × List Value) := do
  let (a, s1) ← stackPop s
  let (b, s2) ← stackPop s1
  if a = .undefined ∨ b = .undefined then .error .typeError
  else
    match a, b with
    | .num x, .num y => .ok (x, y, s2)
    | _, _ => .error .invalidType

/-- Pop two operands and require both to be booleans (AND, OR). -/
def popBool2 (s : List Value) : Except VMError (Bool × Bool × List Value) := do
  let (a, s1) ← stackPop s
  let (b, s2) ← stackPop s1
  if a = .undefined ∨ b = .undefined then .error .typeError
  else
    match a, b with
    | .boolean x, .boolean y => .ok (x, y, s2)
    | _, _ => .error .invalidType

/-- Subscript read after the container check: key must be a Number; the
IndexError guard of the source is length < key, so a key equal to the
length (or negative) is not trapped and reads undefined. -/
def subscriptRead (st : VM) (fr : CallFrame) (rest : List CallFrame)
    (s2 : List Value) (r : Nat) (key : Value) : Except VMError VM :=
  match key with
  | .undefined => .error .typeError
  | .num k =>
    let elems := heapGet st.heap r
    if (elems.length : Int) < k then .error .indexError
    else
      .ok { st with frames :=
        { fr with stack :=
          s2 ++ [if k < 0 then Value.undefined else elems.getD k.toNat Value.undefined] } :: rest }
  | _ => .error .invalidType

/-- One instruction of VM.execute, the big opcode switch of vm.ts,
transliterated case by case.  Opcodes with no case in the source switch
fall to the default CompilerBug. -/
def VM.execute (reg : Registry) (st : VM) (instr : Instruction) :
    Except VMError VM :=
  match st.frames with
  | [] => .error .typeError
  | fr :: rest =>
    match instr.op with
    | .PUSH =>
      .ok { st with frames :=
        { fr with stack := fr.stack ++ [dataGet st.data instr.operand] } :: rest }
    | .POP => do
      let (_, s1) ← stackPop fr.stack
      .ok { st with frames := { fr with stack := s1 } :: rest }
    | .OR => do
      let (x, y, s2) ← popBool2 fr.stack
      .ok { st with frames :=
        { fr with stack := s2 ++ [Value.boolean (y || x)] } :: rest }
    | .AND => do
      let (x, y, s2) ← popBool2 fr.stack
      .ok { st with frames :=
        { fr with stack := s2 ++ [Value.boolean (y && x)] } :: rest }
    | .ADD => do
      let (a, s1) ← stackPop fr.stack
      let (b, s2) ← stackPop s1
      if a = .undefined ∨ b = .undefined then .error .typeError
      else
        match a, b with
        | .num x, .num y =>
          .ok { st with frames :=
            { fr with stack := s2 ++ [Value.num (y + x)] } :: rest }
        | .str x, .str y =>
          .ok { st with frames :=
            { fr with stack := s2 ++ [Value.str (y ++ x)] } :: rest }
        | .listRef ra, .listRef rb =>
          if instr.operand = some 1 then
            .ok { st with
              frames := { fr with stack := s2 ++ [Value.listRef rb] } :: rest,
              heap := st.heap.set rb (heapGet st.heap rb ++ heapGet st.heap ra) }
          else
            .ok { st with
              frames :=
                { fr with stack := s2 ++ [Value.listRef st.heap.length] } :: rest,
              heap := st.heap ++ [heapGet st.heap rb ++ heapGet st.heap ra] }
        | _, _ => .error .invalidType
    | .SUB => do
      let (x, y, s2) ← popNum2 fr.stack
      .ok { st with frames :=
        { fr with stack := s2 ++ [Value.num (y - x)] } :: rest }
    | .MUL => do
      let (x, y, s2) ← popNum2 fr.stack
      .ok { st with frames :=
        { fr with stack := s2 ++ [Value.num (x * y)] } :: rest }
    | .DIV => do
      let (x, y, s2) ← popNum2 fr.stack
      if x = 0 then .error .divisionByZero
      else
        .ok { st with frames :=
          { fr with stack := s2 ++ [Value.num (y / x)] } :: rest }
    | .MOD => do
      let (x, y, s2) ← popNum2 fr.stack
      if x = 0 then .error .divisionByZero
      else
        .ok { st with frames :=
          { fr with stack := s2 ++ [Value.num (y % x)] } :: rest }
    | .LT => do
      let (x, y, s2) ← popNum2 fr.stack
      .ok { st with frames :=
        { fr with stack := s2 ++ [Value.boolean (decide (y < x))] } :: rest }
    | .GT => do
      let (x, y, s2) ← popNum2 fr.stack
      .ok { st with frames :=
        { fr with stack := s2 ++ [Value.boolean (decide (x < y))] } :: rest }
    | .LTE => do
      let (x, y, s2) ← popNum2 fr.stack
      .ok { st with frames :=
        { fr with stack := s2 ++ [Value.boolean (decide (y ≤ x))] } :: rest }
    | .GTE => do
      let (x, y, s2) ← popNum2 fr.stack
      .ok { st with frames :=
        { fr with stack := s2 ++ [Value.boolean (decide (x ≤ y))] } :: rest }
    | .EQ => do
      let (a, s1) ← stackPop fr.stack
      let (b, s2) ← stackPop s1
      if a = .undefined ∨ b = .undefined then .error .typeError
      else
        .ok { st with frames :=
          { fr with stack := s2 ++ [Value.boolean (jsEq a b)] } :: rest }
    | .NEQ => do
      let (a, s1) ← stackPop fr.stack
      let (b, s2) ← stackPop s1
      if a = .undefined ∨ b = .undefined then .error .typeError
      else
        .ok { st with frames :=
          { fr with stack := s2 ++ [Value.boolean (jsNeq a b)] } :: rest }
    | .JUMP =>
      match instr.operand with
      | some t => .ok { st with frames := { fr with ip := t - 1 } :: rest }
      | none => .error .typeError
    | .JUMPF => do
      let (c, s1) ← stackPop fr.stack
      if c = .undefined then .error .typeError
      else if truthy c then
        .ok { st with frames := { fr with stack := s1 } :: rest }
      else
        match instr.operand with
        | some t =>
          .ok { st with frames := { fr with ip := t - 1, stack := s1 } :: rest }
        | none => .error .typeError
    | .JUMPT => do
      let (c, s1) ← stackPop fr.stack
      if c = .undefined then .error .typeError
      else if truthy c then
        match instr.operand with
        | some t =>
          .ok { st with frames := { fr with ip := t - 1, stack := s1 } :: rest }
        | none => .error .typeError
      else
        .ok { st with frames := { fr with stack := s1 } :: rest }
    | .CALL => do
      let (args, s1) ← popArgs (nArgs instr.operand) fr.stack
      let (func, s2) ← stackPop s1
      match func with
      | .native nm =>
        match reg.natives.lookup nm with
        | none => .error .compilerBug
        | some info =>
          if instr.operand = some (info.args : Int) then do
            let r ← info.fn instr.line args
            .ok { st with frames := { fr with stack := s2 ++ [r] } :: rest }
          else .error .nativeFunctionArgumentNumberMismatch
      | .funcRef fi =>
        match st.funcs.get? fi with
        | none => .error .compilerBug
        | some fn =>
          if instr.operand = some (fn.args.length : Int) then
            .ok { st with frames :=
              ⟨-1, func :: args, fn.body⟩ :: { fr with stack := s2 } :: rest }
          else .error .functionArgumentNumberMismatch
      | .syscall nm =>
        match reg.syscalls.lookup nm with
        | none => .error .compilerBug
        | some info => do
          let pargs ← info.preprocessor args instr.line
          if nm = "syscall" then
            match pargs with
            | [] => .error .typeError
            | .str sid :: rargs =>
              .ok { st with
                frames := { fr with stack := s2 } :: rest,
                syscall := some ⟨sid, rargs⟩ }
            | .undefined :: _ => .error .typeError
            | _ :: _ => .error .invalidType
          else
            .ok { st with
              frames := { fr with stack := s2 } :: rest,
              syscall := some ⟨info.syscallId, pargs⟩ }
      | .undefined => .error .typeError
      | _ => .error .invalidType
    | .RET =>
      match st.frames with
      | cur :: caller :: rest2 =>
        if instr.operand = some 1 then do
          let (v, _) ← stackPop cur.stack
          .ok { st with frames :=
            { caller with stack := caller.stack ++ [v] } :: rest2 }
        else
          .ok { st with frames :=
            { caller with stack := caller.stack ++ [Value.null] } :: rest2 }
      | _ => .error .typeError
    | .DATA =>
      .ok { st with frames :=
        { fr with stack := fr.stack ++ [dataGet st.data instr.operand] } :: rest }
    | .STORE =>
      match instr.operand with
      | some k =>
        if k < 0 then .ok st
        else
          .ok { st with frames :=
            { fr with stack :=
                storeAt fr.stack k.toNat (fr.stack.getLast?.getD Value.undefined) } :: rest }
      | none => .ok st
    | .LOAD =>
      .ok { st with frames :=
        { fr with stack := fr.stack ++ [stackIndex fr.stack instr.operand] } :: rest }
    | .DECLAREGL =>
      match dataGet st.data instr.operand with
      | .str id =>
        if (st.globals.lookup id).isSome then .error .variableAlreadyDeclared
        else do
          let (v, s1) ← stackPop fr.stack
          .ok { st with
            frames := { fr with stack := s1 } :: rest,
            globals := globalsSet st.globals id v }
      | _ => .error .typeError
    | .LOADGL =>
      match dataGet st.data instr.operand with
      | .str id =>
        match st.globals.lookup id with
        | some v =>
          .ok { st with frames := { fr with stack := fr.stack ++ [v] } :: rest }
        | none => .error .variableNotDeclared
      | _ => .error .typeError
    | .SETGL =>
      match dataGet st.data instr.operand with
      | .str id =>
        if (st.globals.lookup id).isSome then
          .ok { st with globals :=
                  globalsSet st.globals id (fr.stack.getLast?.getD Value.undefined) }
        else .error .variableNotDeclared
      | _ => .error .typeError
    | .NEG => do
      let (a, s1) ← stackPop fr.stack
      match a with
      | .num x =>
        .ok { st with frames := { fr with stack := s1 ++ [Value.num (-x)] } :: rest }
      | .undefined => .error .typeError
      | _ => .error .invalidType
    | .INC => do
      let (a, s1) ← stackPop fr.stack
      match a with
      | .num x =>
        .ok { st with frames := { fr with stack := s1 ++ [Value.num (x + 1)] } :: rest }
      | .undefined => .error .typeError
      | _ => .error .invalidType
    | .DEC => do
      let (a, s1) ← stackPop fr.stack
      match a with
      | .num x =>
        .ok { st with frames := { fr with stack := s1 ++ [Value.num (x - 1)] } :: rest }
      | .undefined => .error .typeError
      | _ => .error .invalidType
    | .COPY => do
      let (a, s1) ← stackPop fr.stack
      .ok { st with frames := { fr with stack := s1 ++ [a, a] } :: rest }
    | .MAKE_TUPLE => do
      let (elems, s1) ← popArgs (nArgs instr.operand) fr.stack
      .ok { st with
        frames := { fr with stack := s1 ++ [Value.tupleRef st.heap.length] } :: rest,
        heap := st.heap ++ [elems] }
    | .MAKE_LIST => do
      let (elems, s1) ← popArgs (nArgs instr.operand) fr.stack
      .ok { st with
        frames := { fr with stack := s1 ++ [Value.listRef st.heap.length] } :: rest,
        heap := st.heap ++ [elems] }
    | .SUBSCRIPT => do
      let (key, s1) ← stackPop fr.stack
      let (container, s2) ← stackPop s1
      match container with
      | .tupleRef r => subscriptRead st fr rest s2 r key
      | .listRef r => subscriptRead st fr rest s2 r key
      | .undefined => .error .typeError
      | _ => .error .invalidType
    | .STORE_SUBSCRIPT => do
      let (key, s1) ← stackPop fr.stack
      let (name, s2) ← stackPop s1
      match name with
      | .listRef r =>
        match key with
        | .num k => do
          let (v, s3) ← stackPop s2
          let newHeap :=
            if k < 0 then st.heap
            else st.heap.set r (storeAt (heapGet st.heap r) k.toNat v)
          .ok { st with
            frames := { fr with stack := s3 ++ [v] } :: rest,
            heap := newHeap }
        | .undefined => .error .typeError
        | _ => .error .invalidType
      | .undefined => .error .typeError
      | _ => .error .invalidType
    | .NOT => do
      let (a, s1) ← stackPop fr.stack
      match a with
      | .boolean b =>
        .ok { st with frames := { fr with stack := s1 ++ [Value.boolean (!b)] } :: rest }
      | .undefined => .error .typeError
      | _ => .error .invalidType
    | .NOP => .ok st
    | _ => .error .compilerBug

/-- Fetch text[ip] of a frame; a negative or out-of-range ip reads the
JavaScript undefined, which execute would fail to destructure. -/
def fetch (fr : CallFrame) : Option Instruction :=
  if fr.ip < 0 then none else fr.text.get? fr.ip.toNat

/-- Post-instruction bookkeeping of the run loop: increment the ip of the
(possibly new) top frame, and pop the frame when the ip has run off the
end of its text. -/
def advance (st : VM) : VM :=
  match st.frames with
  | [] => st
  | fr :: rest =>
    if fr.ip + 1 ≥ (fr.text.length : Int) then { st with frames := rest }
    else { st with frames := { fr with ip := fr.ip + 1 } :: rest }

/-- The run loop on states: while step budget remains, frames exist and no
syscall is pending, fetch, execute and advance. -/
def runAux (reg : Registry) : Nat → VM → Except VMError VM
  | 0, st => .ok st
  | fuel + 1, st =>
    match st.frames with
    | [] => .ok st
    | fr :: _ =>
      if st.syscall.isSome then .ok st
      else
        match fetch fr with
        | none => .error .typeError
        | some instr => do
          let st2 ← VM.execute reg st instr
          runAux reg fuel (advance st2)

/-- Status reported when run returns: a pending syscall wins, then empty
frames mean halted, otherwise the machine is still runnable. -/
def statusOf (st : VM) : VMStatus :=
  if st.syscall.isSome then .SYSCALL
  else if st.frames.isEmpty then .HALTED
  else .RUNNING

/-- Serialization of a VM into an image, the state standing for the opaque
encoded blob. -/
def VM.serialize (st : VM) : VMImage :=
  { state := st, status := statusOf st, syscall := st.syscall }

/-- VM.run: drive the loop and return the serialized snapshot. -/
def VM.run (reg : Registry) (steps : Nat) (st : VM) : Except VMError VMImage := do
  let st2 ← runAux reg steps st
  .ok (VM.serialize st2)

/-- VM.deserialize: rebuild the state; when the image status is SYSCALL
and a return value is supplied, push it onto the innermost frame (a
missing frame makes the push throw a TypeError); always clear the pending
syscall. -/
def VM.deserialize (img : VMImage) (arg : Option Value) : Except VMError VM :=
  match arg with
  | some v =>
    if img.status = .SYSCALL then
      match img.state.frames with
      | [] => .error .typeError
      | fr :: rest =>
        .ok { img.state with
          frames := { fr with stack := fr.stack ++ [v] } :: rest,
          syscall := none }
    else .ok { img.state with syscall := none }
  | none => .ok { img.state with syscall := none }

/-- Program container: instruction stream and constant pool. -/
structure Program where
  text : List Instruction
  data : List Value
deriving DecidableEq

/-- VM.create: a single root frame at ip 0 with an empty stack, globals
pre-populated with every registered native and syscall name. -/
def VM.create (reg : Registry) (program : Program) (funcs : List Func)
    (heap : List (List Value)) : VM :=
  let g1 := reg.natives.foldl (fun g p => globalsSet g p.1 (Value.native p.1)) []
  let g2 := reg.syscalls.foldl (fun g p => globalsSet g p.1 (Value.syscall p.1)) g1
  { data := program.data
    frames := [⟨0, [], program.text⟩]
    globals := g2
    heap := heap
    funcs := funcs
    syscall := none }

/-- Compiler scope record: a declared local and the block depth it was
declared at. -/
structure Local where
  name : String
  depth : Nat
deriving DecidableEq

/-- Compile-time errors relevant to the embedded compiler fragment. -/
inductive CompileError where
  | variableAlreadyDeclaredInScope
  | syntaxError
  | compilerBug
deriving DecidableEq

/-- The compiler state the declaration logic touches: the locals list, the
current block depth, and the program being emitted. -/
structure CompilerState where
  locals : List Local
  depth : Nat
  data : List Value
  text : List Instruction
deriving DecidableEq

/-- Compiler.emitText: append one instruction to the program text. -/
def emitText (cs : CompilerState) (op : Opcode) (line : Int)
    (operand : Option Int) : CompilerState :=
  { cs with text := cs.text ++ [⟨op, operand, line⟩] }

/-- Compiler.declareVariable: at depth 0 the name goes to the constant
pool and a DECLAREGL is emitted; at inner depth the source runs findIndex
over the WHOLE locals list (not only the current depth) and throws
VariableAlreadyDeclaredInScope on any hit, otherwise records the local at
the current depth. -/
def declareVariable (cs : CompilerState) (name : String) (line : Int) :
    Except CompileError CompilerState :=
  if cs.depth = 0 then
    let cs2 := { cs with data := cs.data ++ [Value.str name] }
    .ok (emitText cs2 .DECLAREGL line (some ((cs2.data.length - 1 : Nat) : Int)))
  else
    if cs.locals.any (fun l => l.name == name) then
      .error .variableAlreadyDeclaredInScope
    else
      .ok { cs with locals := cs.locals ++ [⟨name, cs.depth⟩] }

instance exceptDecEq {ε α : Type} [DecidableEq ε] [DecidableEq α] :
    DecidableEq (Except ε α) := fun x y =>
  match x, y with
  | .ok a, .ok b =>
    if h : a = b then .isTrue (by rw [h])
    else .isFalse (by intro hh; cases hh; exact h rfl)
  | .error e, .error f =>
    if h : e = f then .isTrue (by rw [h])
    else .isFalse (by intro hh; cases hh; exact h rfl)
  | .ok _, .error _ => .isFalse (by intro hh; cases hh)
  | .error _, .ok _ => .isFalse (by intro hh; cases hh)

theorem except_ok_bind {ε α β : Type} (x : α) (f : α → Except ε β) :
    (Except.ok x >>= f) = f x := rfl

theorem stackPop_concat (s : List Value) (v : Value) :
    stackPop (s ++ [v]) = .ok (v, s) := by
  simp [stackPop, List.getLast?_concat, List.dropLast_concat]

theorem popArgs_append (args : List Value) :
    ∀ s, popArgs args.length (s ++ args) = .ok (args, s) := by
  induction args using List.reverseRecOn with
  | nil => intro s; simp [popArgs]
  | append_singleton init lastv ih =>
    intro s
    have h1 : (init ++ [lastv]).length = init.length + 1 := by simp
    have h2 : s ++ (init ++ [lastv]) = (s ++ init) ++ [lastv] := by simp
    rw [h1, h2]
    simp only [popArgs, stackPop_concat, ih, except_ok_bind]

theorem runAux_pending (reg : Registry) (fuel : Nat) (st : VM)
    (h : st.syscall.isSome) : runAux reg fuel st = .ok st := by
  cases fuel with
  | zero => rfl
  | succ n =>
    cases hf : st.frames with
    | nil => simp [runAux, hf]
    | cons fr rest => simp [runAux, hf, h]

theorem execute_eq_ok (reg : Registry) (d : List Value) (g : List (String × Value))
    (hp : List (List Value)) (fns : List Func) (sy : Option Syscall)
    (ipv : Int) (txt : List Instruction) (rest : List CallFrame)
    (s : List Value) (a b : Value) (o : Option Int) (l : Int)
    (ha : a ≠ .undefined) (hb : b ≠ .undefined) :
    VM.execute reg ⟨d, ⟨ipv, s ++ [b, a], txt⟩ :: rest, g, hp, fns, sy⟩ ⟨.EQ, o, l⟩ =
      .ok ⟨d, ⟨ipv, s ++ [Value.boolean (jsEq a b)], txt⟩ :: rest, g, hp, fns, sy⟩ := by
  have h2 : s ++ [b, a] = (s ++ [b]) ++ [a] := by simp
  simp only [VM.execute, h2, stackPop_concat, except_ok_bind]
  rw [if_neg (by simp [ha, hb])]

theorem execute_neq_ok (reg : Registry) (d : List Value) (g : List (String × Value))
    (hp : List (List Value)) (fns : List Func) (sy : Option Syscall)
    (ipv : Int) (txt : List Instruction) (rest : List CallFrame)
    (s : List Value) (a b : Value) (o : Option Int) (l : Int)
    (ha : a ≠ .undefined) (hb : b ≠ .undefined) :
    VM.execute reg ⟨d, ⟨ipv, s ++ [b, a], txt⟩ :: rest, g, hp, fns, sy⟩ ⟨.NEQ, o, l⟩ =
      .ok ⟨d, ⟨ipv, s ++ [Value.boolean (jsNeq a b)], txt⟩ :: rest, g, hp, fns, sy⟩ := by
  have h2 : s ++ [b, a] = (s ++ [b]) ++ [a] := by simp
  simp only [VM.execute, h2, stackPop_concat, except_ok_bind]
  rw [if_neg (by simp [ha, hb])]

theorem jsNeq_not_jsEq (a b : Value) : jsNeq a b = !(jsEq a b) := by
  cases hT : (a.tag == b.tag) <;> cases hP : (b.payload == a.payload) <;>
    simp [jsEq, jsNeq, hT, hP, bne]

/-- Empty registry, for concrete evaluations that use no natives or
syscalls. -/
def reg0 : Registry := ⟨[], []⟩

/-- C1 counterexample: equality is NOT element-wise structural on lists.
In a heap holding two distinct list payloads with identical elements
(addresses 0 and 1, both holding the single element 1), EQ on the two
list values pushes false, although their payloads are structurally equal
element by element. -/
theorem eq_not_structural_on_lists :
    heapGet [[Value.num 1], [Value.num 1]] 0 =
      heapGet [[Value.num 1], [Value.num 1]] 1 ∧
    VM.execute reg0
        ⟨[], [⟨0, [Value.listRef 0, Value.listRef 1], []⟩], [],
          [[Value.num 1], [Value.num 1]], [], none⟩ ⟨.EQ, none, 0⟩ =
      .ok ⟨[], [⟨0, [Value.boolean false], []⟩], [],
        [[Value.num 1], [Value.num 1]], [], none⟩ := by
  exact ⟨rfl, rfl⟩

/-- C1 (amended): EQ compares the type tags and then the payloads by
JavaScript strict equality, which for Tuple and List payloads is identity
of the underlying array reference, not element-wise structural equality;
distinct tags never compare equal; NEQ pushes the strict disequality,
the pointwise complement. -/
theorem eq_reference_semantics (reg : Registry) (d : List Value)
    (g : List (String × Value)) (hp : List (List Value)) (fns : List Func)
    (sy : Option Syscall) (ipv : Int) (txt : List Instruction)
    (rest : List CallFrame) (s : List Value) (a b : Value)
    (o l o2 l2 : Int) (ha : a ≠ .undefined) (hb : b ≠ .undefined) :
    (VM.execute reg ⟨d, ⟨ipv, s ++ [b, a], txt⟩ :: rest, g, hp, fns, sy⟩
        ⟨.EQ, some o, l⟩ =
      .ok ⟨d, ⟨ipv, s ++ [Value.boolean (jsEq a b)], txt⟩ :: rest, g, hp, fns, sy⟩) ∧
    (VM.execute reg ⟨d, ⟨ipv, s ++ [b, a], txt⟩ :: rest, g, hp, fns, sy⟩
        ⟨.NEQ, some o2, l2⟩ =
      .ok ⟨d, ⟨ipv, s ++ [Value.boolean (jsNeq a b)], txt⟩ :: rest, g, hp, fns, sy⟩) ∧
    (∀ v w : Value, v.tag ≠ w.tag → jsEq v w = false) ∧
    (∀ i j : Nat, jsEq (Value.listRef i) (Value.listRef j) = decide (i = j)) ∧
    (∀ i j : Nat, jsEq (Value.tupleRef i) (Value.tupleRef j) = decide (i = j)) ∧
    (∀ v w : Value, jsNeq v w = !(jsEq v w)) := by
  refine ⟨execute_eq_ok reg d g hp fns sy ipv txt rest s a b (some o) l ha hb,
    execute_neq_ok reg d g hp fns sy ipv txt rest s a b (some o2) l2 ha hb,
    ?_, ?_, ?_, jsNeq_not_jsEq⟩
  · intro v w h
    simp [jsEq, h]
  · intro i j
    by_cases h : i = j
    · subst h; simp [jsEq, Value.tag, Value.payload]
    · simp [jsEq, Value.tag, Value.payload, h, Ne.symm h]
  · intro i j
    by_cases h : i = j
    · subst h; simp [jsEq, Value.tag, Value.payload]
    · simp [jsEq, Value.tag, Value.payload, h, Ne.symm h]

/-- Witness for eq_reference_semantics at concrete inputs. -/
theorem eq_reference_semantics_witness :
    (VM.execute reg0 ⟨[], [⟨0, [Value.num 2, Value.num 1], []⟩], [], [], [], none⟩
        ⟨.EQ, some 0, 0⟩ =
      .ok ⟨[], [⟨0, [Value.boolean (jsEq (Value.num 1) (Value.num 2))], []⟩],
        [], [], [], none⟩) ∧
    (VM.execute reg0 ⟨[], [⟨0, [Value.num 2, Value.num 1], []⟩], [], [], [], none⟩
        ⟨.NEQ, some 0, 0⟩ =
      .ok ⟨[], [⟨0, [Value.boolean (jsNeq (Value.num 1) (Value.num 2))], []⟩],
        [], [], [], none⟩) ∧
    (∀ v w : Value, v.tag ≠ w.tag → jsEq v w = false) ∧
    (∀ i j : Nat, jsEq (Value.listRef i) (Value.listRef j) = decide (i = j)) ∧
    (∀ i j : Nat, jsEq (Value.tupleRef i) (Value.tupleRef j) = decide (i = j)) ∧
    (∀ v w : Value, jsNeq v w = !(jsEq v w)) := by
  have h := eq_reference_semantics reg0 [] [] [] [] none 0 [] []
    [] (Value.num 1) (Value.num 2) 0 0 0 0 (by decide) (by decide)
  simpa using h

/-- C2: the IndexError guard of SUBSCRIPT is length < key, so the
boundary cases of the claim fail in the code.  On the one-element list at
heap address 0: key 1 (equal to the length) is NOT trapped and pushes the
JavaScript undefined; key -1 is NOT trapped and pushes undefined; only
key 2 (strictly greater than the length) traps IndexError. -/
theorem subscript_boundary_eval :
    (VM.execute reg0
        ⟨[], [⟨0, [Value.listRef 0, Value.num 1], []⟩], [], [[Value.num 7]], [], none⟩
        ⟨.SUBSCRIPT, none, 0⟩ =
      .ok ⟨[], [⟨0, [Value.undefined], []⟩], [], [[Value.num 7]], [], none⟩) ∧
    (VM.execute reg0
        ⟨[], [⟨0, [Value.listRef 0, Value.num (-1)], []⟩], [], [[Value.num 7]], [], none⟩
        ⟨.SUBSCRIPT, none, 0⟩ =
      .ok ⟨[], [⟨0, [Value.undefined], []⟩], [], [[Value.num 7]], [], none⟩) ∧
    (VM.execute reg0
        ⟨[], [⟨0, [Value.listRef 0, Value.num 2], []⟩], [], [[Value.num 7]], [], none⟩
        ⟨.SUBSCRIPT, none, 0⟩ = .error .indexError) ∧
    (VM.execute reg0
        ⟨[], [⟨0, [Value.listRef 0, Value.num 0], []⟩], [], [[Value.num 7]], [], none⟩
        ⟨.SUBSCRIPT, none, 0⟩ =
      .ok ⟨[], [⟨0, [Value.num 7], []⟩], [], [[Value.num 7]], [], none⟩) := by
  exact ⟨rfl, rfl, rfl, rfl⟩

/-- C10: NEQ pushes exactly the Boolean negation of what EQ pushes on the
same two operands. -/
theorem neq_complement_of_eq (reg : Registry) (d : List Value)
    (g : List (String × Value)) (hp : List (List Value)) (fns : List Func)
    (sy : Option Syscall) (ipv : Int) (txt : List Instruction)
    (rest : List CallFrame) (s : List Value) (a b : Value)
    (o o2 : Option Int) (l l2 : Int) (ha : a ≠ .undefined) (hb : b ≠ .undefined) :
    ∃ r : Bool,
      VM.execute reg ⟨d, ⟨ipv, s ++ [b, a], txt⟩ :: rest, g, hp, fns, sy⟩
          ⟨.EQ, o, l⟩ =
        .ok ⟨d, ⟨ipv, s ++ [Value.boolean r], txt⟩ :: rest, g, hp, fns, sy⟩ ∧
      VM.execute reg ⟨d, ⟨ipv, s ++ [b, a], txt⟩ :: rest, g, hp, fns, sy⟩
          ⟨.NEQ, o2, l2⟩ =
        .ok ⟨d, ⟨ipv, s ++ [Value.boolean (!r)], txt⟩ :: rest, g, hp, fns, sy⟩ := by
  refine ⟨jsEq a b, execute_eq_ok reg d g hp fns sy ipv txt rest s a b o l ha hb, ?_⟩
  rw [← jsNeq_not_jsEq]
  exact execute_neq_ok reg d g hp fns sy ipv txt rest s a b o2 l2 ha hb

/-- Witness for neq_complement_of_eq at concrete inputs. -/
theorem neq_complement_of_eq_witness :
    ∃ r : Bool,
      VM.execute reg0
          ⟨[], [⟨0, [Value.str "a", Value.str "a"], []⟩], [], [], [], none⟩
          ⟨.EQ, none, 0⟩ =
        .ok ⟨[], [⟨0, [Value.boolean r], []⟩], [], [], [], none⟩ ∧
      VM.execute reg0
          ⟨[], [⟨0, [Value.str "a", Value.str "a"], []⟩], [], [], [], none⟩
          ⟨.NEQ, none, 0⟩ =
        .ok ⟨[], [⟨0, [Value.boolean (!r)], []⟩], [], [], [], none⟩ := by
  have h := neq_complement_of_eq reg0 [] [] [] [] none 0 [] [] []
    (Value.str "a") (Value.str "a") none none 0 0 (by decide) (by decide)
  simpa using h

/-- C4 counterexample: declaring a name at inner depth 2 that only
shadows a local of the enclosing depth-1 scope is rejected: the source
searches the whole locals list, so declareVariable throws
VariableAlreadyDeclaredInScope although no local of the same name exists
at the current depth. -/
theorem declare_shadowing_rejected :
    declareVariable ⟨[⟨"x", 1⟩], 2, [], []⟩ "x" 0 =
      .error .variableAlreadyDeclaredInScope ∧
    ¬ ∃ l ∈ ([⟨"x", 1⟩] : List Local), l.name = "x" ∧ l.depth = 2 := by
  exact ⟨rfl, by decide⟩

/-- C4 (amended): at inner depth, declareVariable throws
VariableAlreadyDeclaredInScope exactly when a local of the same name
exists ANYWHERE in the locals list, of any depth, so shadowing an
outer-scope local is also rejected; when no local of that name exists the
declaration appends a record at the current depth and emits nothing. -/
theorem declareVariable_semantics (cs : CompilerState) (name : String)
    (line : Int) (hd : 0 < cs.depth) :
    (cs.locals.any (fun l => l.name == name) = true →
      declareVariable cs name line = .error .variableAlreadyDeclaredInScope) ∧
    (cs.locals.any (fun l => l.name == name) = false →
      declareVariable cs name line =
        .ok { cs with locals := cs.locals ++ [⟨name, cs.depth⟩] }) := by
  have hne : cs.depth ≠ 0 := Nat.pos_iff_ne_zero.mp hd
  constructor
  · intro h
    simp [declareVariable, hne, h]
  · intro h
    simp [declareVariable, hne, h]

/-- C3 counterexample: executing RET in the sole remaining frame does not
halt the VM; frames.at(-2) is undefined and the push onto its stack
throws a TypeError, so run propagates an error instead of returning a
HALTED image. -/
theorem ret_last_frame_error :
    VM.run reg0 1 ⟨[], [⟨0, [Value.num 5], [⟨.RET, some 1, 0⟩]⟩], [], [], [], none⟩ =
      .error .typeError := rfl

/-- C3 (amended): RET with operand 1 pops the current top of stack and
pushes it onto the caller frame, any other operand pushes Null onto the
caller, and the current frame is popped; but when the executing frame is
the last remaining frame, RET fails with a host TypeError (there is no
caller frame to push to) instead of halting the VM. -/
theorem ret_semantics (reg : Registry) (d : List Value)
    (g : List (String × Value)) (hp : List (List Value)) (fns : List Func)
    (sy : Option Syscall) (ipv ipv2 : Int) (txt txt2 : List Instruction)
    (s s0 : List Value) (v : Value) (caller : CallFrame)
    (rest2 : List CallFrame) (o : Option Int) (l : Int) :
    (VM.execute reg ⟨d, ⟨ipv, s ++ [v], txt⟩ :: caller :: rest2, g, hp, fns, sy⟩
        ⟨.RET, some 1, l⟩ =
      .ok ⟨d, { caller with stack := caller.stack ++ [v] } :: rest2, g, hp, fns, sy⟩) ∧
    (o ≠ some 1 →
      VM.execute reg ⟨d, ⟨ipv2, s0, txt2⟩ :: caller :: rest2, g, hp, fns, sy⟩
          ⟨.RET, o, l⟩ =
        .ok ⟨d, { caller with stack := caller.stack ++ [Value.null] } :: rest2,
          g, hp, fns, sy⟩) ∧
    (VM.execute reg ⟨d, [⟨ipv2, s0, txt2⟩], g, hp, fns, sy⟩ ⟨.RET, o, l⟩ =
      .error .typeError) := by
  refine ⟨?_, ?_, ?_⟩
  · simp [VM.execute, stackPop_concat, except_ok_bind]
  · intro h
    simp only [VM.execute, if_neg h]
  · simp only [VM.execute]

/-- Witness for ret_semantics at concrete inputs. -/
theorem ret_semantics_witness :
    (VM.execute reg0
        ⟨[], [⟨0, [Value.num 9], []⟩, ⟨3, [Value.num 1], []⟩], [], [], [], none⟩
        ⟨.RET, some 1, 0⟩ =
      .ok ⟨[], [⟨3, [Value.num 1, Value.num 9], []⟩], [], [], [], none⟩) ∧
    ((some 0 : Option Int) ≠ some 1 →
      VM.execute reg0
          ⟨[], [⟨0, [], []⟩, ⟨3, [Value.num 1], []⟩], [], [], [], none⟩
          ⟨.RET, some 0, 0⟩ =
        .ok ⟨[], [⟨3, [Value.num 1, Value.null], []⟩], [], [], [], none⟩) ∧
    (VM.execute reg0 ⟨[], [⟨0, [], []⟩], [], [], [], none⟩ ⟨.RET, some 0, 0⟩ =
      .error .typeError) := by
  have h := ret_semantics reg0 [] [] [] [] none 0 3 [] [] [Value.num 9] []
    (Value.num 9) ⟨3, [Value.num 1], []⟩ [] (some 0) 0
  simpa using h

/-- Shared shape of CALL on a user function: after popping the arguments
and the callee, the arity test compares the raw operand with the declared
parameter count; on success a new frame with ip -1, stack
callee :: args and text the callee body is pushed. -/
theorem execute_call_funcRef (reg : Registry) (d : List Value)
    (g : List (String × Value)) (hp : List (List Value)) (fns : List Func)
    (sy : Option Syscall) (ipv : Int) (txt : List Instruction)
    (rest : List CallFrame) (s args : List Value) (fi : Nat) (fn : Func)
    (n : Nat) (l : Int) (hargs : args.length = n)
    (hfn : fns.get? fi = some fn) :
    VM.execute reg ⟨d, ⟨ipv, s ++ Value.funcRef fi :: args, txt⟩ :: rest,
        g, hp, fns, sy⟩ ⟨.CALL, some (n : Int), l⟩ =
      if (some (n : Int) : Option Int) = some (fn.args.length : Int) then
        .ok ⟨d, ⟨-1, Value.funcRef fi :: args, fn.body⟩ :: ⟨ipv, s, txt⟩ :: rest,
          g, hp, fns, sy⟩
      else .error .functionArgumentNumberMismatch := by
  have hsplit : s ++ Value.funcRef fi :: args = (s ++ [Value.funcRef fi]) ++ args := by
    simp
  have hn : nArgs (some (n : Int)) = args.length := by simp [nArgs, hargs]
  simp only [VM.execute, hsplit, hn, popArgs_append, except_ok_bind,
    stackPop_concat, hfn]

/-- C8: CALL n on a user Function traps FunctionArgumentNumberMismatch
exactly when the declared parameter count differs from n; otherwise it
pushes a new CallFrame whose operand stack is the callee followed by the
arguments in left-to-right source order (callee at slot 0), with ip -1
and text the callee body. -/
theorem call_function_semantics (reg : Registry) (d : List Value)
    (g : List (String × Value)) (hp : List (List Value)) (fns : List Func)
    (sy : Option Syscall) (ipv : Int) (txt : List Instruction)
    (rest : List CallFrame) (s args : List Value) (fi : Nat) (fn : Func)
    (n : Nat) (l : Int) (hargs : args.length = n)
    (hfn : fns.get? fi = some fn) :
    (fn.args.length ≠ n →
      VM.execute reg ⟨d, ⟨ipv, s ++ Value.funcRef fi :: args, txt⟩ :: rest,
          g, hp, fns, sy⟩ ⟨.CALL, some (n : Int), l⟩ =
        .error .functionArgumentNumberMismatch) ∧
    (fn.args.length = n →
      VM.execute reg ⟨d, ⟨ipv, s ++ Value.funcRef fi :: args, txt⟩ :: rest,
          g, hp, fns, sy⟩ ⟨.CALL, some (n : Int), l⟩ =
        .ok ⟨d, ⟨-1, Value.funcRef fi :: args, fn.body⟩ :: ⟨ipv, s, txt⟩ :: rest,
          g, hp, fns, sy⟩) := by
  rw [execute_call_funcRef reg d g hp fns sy ipv txt rest s args fi fn n l hargs hfn]
  constructor
  · intro h
    have hne : ¬ ((some (n : Int) : Option Int) = some (fn.args.length : Int)) := by
      simp only [Option.some_inj, Nat.cast_inj]
      exact fun hh => h hh.symm
    rw [if_neg hne]
  · intro h
    subst h
    rw [if_pos rfl]

/-- Witness for call_function_semantics at concrete inputs: a
one-parameter function called with one argument. -/
theorem call_function_semantics_witness :
    ((Func.mk "f" ["x"] []).args.length ≠ 1 →
      VM.execute reg0
          ⟨[], [⟨0, [Value.funcRef 0, Value.num 4], [] ⟩], [], [],
            [Func.mk "f" ["x"] []], none⟩ ⟨.CALL, some 1, 0⟩ =
        .error .functionArgumentNumberMismatch) ∧
    ((Func.mk "f" ["x"] []).args.length = 1 →
      VM.execute reg0
          ⟨[], [⟨0, [Value.funcRef 0, Value.num 4], [] ⟩], [], [],
            [Func.mk "f" ["x"] []], none⟩ ⟨.CALL, some 1, 0⟩ =
        .ok ⟨[], [⟨-1, [Value.funcRef 0, Value.num 4], []⟩, ⟨0, [], []⟩], [], [],
          [Func.mk "f" ["x"] []], none⟩) := by
  have h := call_function_semantics reg0 [] [] [] [Func.mk "f" ["x"] []] none 0
    [] [] [] [Value.num 4] 0 (Func.mk "f" ["x"] []) 1 0 (by decide) (by decide)
  simpa using h

/-- C9: ADD on two list operands.  With operand flag 1 the left list at
heap address rb is mutated in place, its payload becoming the old left
elements followed by the right elements, and the SAME reference rb is
left on the stack, so every alias of address rb observes the change.
With any other operand a fresh address (the current heap length, distinct
from both operands) holding the concatenation is allocated and pushed,
and the payloads at both operand addresses are unchanged. -/
theorem add_lists_semantics (reg : Registry) (d : List Value)
    (g : List (String × Value)) (hp : List (List Value)) (fns : List Func)
    (sy : Option Syscall) (ipv : Int) (txt : List Instruction)
    (rest : List CallFrame) (s : List Value) (ra rb : Nat) (l : Int)
    (hra : ra < hp.length) (hrb : rb < hp.length) :
    (VM.execute reg
        ⟨d, ⟨ipv, s ++ [Value.listRef rb, Value.listRef ra], txt⟩ :: rest,
          g, hp, fns, sy⟩ ⟨.ADD, some 1, l⟩ =
      .ok ⟨d, ⟨ipv, s ++ [Value.listRef rb], txt⟩ :: rest, g,
        hp.set rb (heapGet hp rb ++ heapGet hp ra), fns, sy⟩) ∧
    (∀ o : Option Int, o ≠ some 1 →
      VM.execute reg
          ⟨d, ⟨ipv, s ++ [Value.listRef rb, Value.listRef ra], txt⟩ :: rest,
            g, hp, fns, sy⟩ ⟨.ADD, o, l⟩ =
        .ok ⟨d, ⟨ipv, s ++ [Value.listRef hp.length], txt⟩ :: rest, g,
          hp ++ [heapGet hp rb ++ heapGet hp ra], fns, sy⟩) ∧
    (heapGet (hp ++ [heapGet hp rb ++ heapGet hp ra]) rb = heapGet hp rb) ∧
    (heapGet (hp ++ [heapGet hp rb ++ heapGet hp ra]) ra = heapGet hp ra) ∧
    hp.length ≠ rb ∧ hp.length ≠ ra := by
  have hsplit : s ++ [Value.listRef rb, Value.listRef ra] =
      (s ++ [Value.listRef rb]) ++ [Value.listRef ra] := by simp
  refine ⟨?_, ?_, ?_, ?_, (Nat.ne_of_lt hrb).symm, (Nat.ne_of_lt hra).symm⟩
  · simp only [VM.execute, hsplit, stackPop_concat, except_ok_bind]
    rw [if_neg (by simp)]
    rw [if_pos trivial]
  · intro o ho
    simp only [VM.execute, hsplit, stackPop_concat, except_ok_bind]
    rw [if_neg (by simp), if_neg ho]
  · simp [heapGet, List.getElem?_append, hrb]
  · simp [heapGet, List.getElem?_append, hra]

/-- Witness for add_lists_semantics at concrete inputs. -/
theorem add_lists_semantics_witness :
    (VM.execute reg0
        ⟨[], [⟨0, [Value.listRef 0, Value.listRef 1], []⟩], [],
          [[Value.num 1], [Value.num 2]], [], none⟩ ⟨.ADD, some 1, 0⟩ =
      .ok ⟨[], [⟨0, [Value.listRef 0], []⟩], [],
        [[Value.num 1, Value.num 2], [Value.num 2]], [], none⟩) ∧
    (∀ o : Option Int, o ≠ some 1 →
      VM.execute reg0
          ⟨[], [⟨0, [Value.listRef 0, Value.listRef 1], []⟩], [],
            [[Value.num 1], [Value.num 2]], [], none⟩ ⟨.ADD, o, 0⟩ =
        .ok ⟨[], [⟨0, [Value.listRef 2], []⟩], [],
          [[Value.num 1], [Value.num 2], [Value.num 1, Value.num 2]], [], none⟩) := by
  have h := add_lists_semantics reg0 [] [] [[Value.num 1], [Value.num 2]] []
    none 0 [] [] [] 1 0 0 (by decide) (by decide)
  exact ⟨by simpa using h.1, by simpa using h.2.1⟩

/-- Shared shape of a syscall trap: from a state with no pending syscall
whose current instruction is a CALL of a registered syscall value (other
than the dynamic "syscall" name) that is not the last instruction of its
frame, one run step pops the callee and arguments, records the pending
syscall, leaves the ip on the following instruction, and run returns a
SYSCALL image without consuming further budget. -/
theorem run_syscall_trap (reg : Registry) (d : List Value)
    (g : List (String × Value)) (hp : List (List Value)) (fns : List Func)
    (p : Int) (txt : List Instruction) (rest : List CallFrame)
    (s args : List Value) (nm : String) (info : SyscallInfo)
    (pargs : List Value) (ln : Int) (fuel : Nat)
    (hp0 : 0 ≤ p)
    (hfetch : txt.get? p.toNat = some ⟨.CALL, some (args.length : Int), ln⟩)
    (hlk : reg.syscalls.lookup nm = some info)
    (hpre : info.preprocessor args ln = .ok pargs)
    (hnm : nm ≠ "syscall")
    (hlen : p + 1 < (txt.length : Int)) :
    VM.run reg (fuel + 1)
        ⟨d, ⟨p, s ++ Value.syscall nm :: args, txt⟩ :: rest, g, hp, fns, none⟩ =
      .ok ⟨⟨d, ⟨p + 1, s, txt⟩ :: rest, g, hp, fns, some ⟨info.syscallId, pargs⟩⟩,
        .SYSCALL, some ⟨info.syscallId, pargs⟩⟩ := by
  have hsplit : s ++ Value.syscall nm :: args = (s ++ [Value.syscall nm]) ++ args := by
    simp
  have hn : nArgs (some ((args.length : Nat) : Int)) = args.length := by simp [nArgs]
  have hexec : VM.execute reg
      ⟨d, ⟨p, s ++ Value.syscall nm :: args, txt⟩ :: rest, g, hp, fns, none⟩
      ⟨.CALL, some (args.length : Int), ln⟩ =
      .ok ⟨d, ⟨p, s, txt⟩ :: rest, g, hp, fns, some ⟨info.syscallId, pargs⟩⟩ := by
    simp only [VM.execute, hsplit, hn, popArgs_append, except_ok_bind,
      stackPop_concat, hlk, hpre]
    rw [if_neg hnm]
  have hfetch2 : fetch ⟨p, s ++ Value.syscall nm :: args, txt⟩ =
      some ⟨.CALL, some (args.length : Int), ln⟩ := by
    simp only [fetch]
    rw [if_neg (not_lt.mpr hp0)]
    exact hfetch
  have hadv : advance ⟨d, ⟨p, s, txt⟩ :: rest, g, hp, fns,
      some ⟨info.syscallId, pargs⟩⟩ =
      ⟨d, ⟨p + 1, s, txt⟩ :: rest, g, hp, fns, some ⟨info.syscallId, pargs⟩⟩ := by
    simp only [advance]
    rw [if_neg (not_le.mpr hlen)]
  have hrun : runAux reg (fuel + 1)
      ⟨d, ⟨p, s ++ Value.syscall nm :: args, txt⟩ :: rest, g, hp, fns, none⟩ =
      .ok ⟨d, ⟨p + 1, s, txt⟩ :: rest, g, hp, fns, some ⟨info.syscallId, pargs⟩⟩ := by
    simp only [runAux, Option.isSome_none, Bool.false_eq_true, if_false,
      hfetch2, hexec, except_ok_bind, hadv]
    exact runAux_pending reg fuel _ rfl
  simp only [VM.run, hrun, except_ok_bind, VM.serialize, statusOf]
  rfl

/-- C7 counterexample: a reachable SYSCALL image with an EMPTY frame
stack.  When the trapping CALL is the last instruction of its frame, the
post-instruction bookkeeping pops the frame before run returns, so run
yields status SYSCALL with no frames, violating the claimed invariant
that frames is non-empty whenever the pending syscall is set. -/
theorem syscall_trap_empty_frames :
    ∃ img : VMImage,
      VM.run ⟨[], [("t", ⟨"t", fun a _ => .ok a⟩)]⟩ 1
          ⟨[], [⟨0, [Value.syscall "t"], [⟨.CALL, some 0, 0⟩]⟩], [], [], [], none⟩ =
        .ok img ∧
      img.status = .SYSCALL ∧ img.state.syscall = some ⟨"t", []⟩ ∧
      img.state.frames = [] :=
  ⟨⟨⟨[], [], [], [], [], some ⟨"t", []⟩⟩, .SYSCALL, some ⟨"t", []⟩⟩,
    rfl, rfl, rfl, rfl⟩

/-- C7 (amended): after run returns with a pending syscall, the machine
is quiescent: the image status is SYSCALL, re-running the returned state
returns at once with the same state regardless of the step budget, and
PROVIDED the trapping CALL was not the last instruction of its frame the
frame stack is non-empty with the top frame ip on the instruction
following the CALL.  (When the CALL is the last instruction, the frame is
popped first; see the counterexample.) -/
theorem syscall_trap_quiescent (reg : Registry) (d : List Value)
    (g : List (String × Value)) (hp : List (List Value)) (fns : List Func)
    (p : Int) (txt : List Instruction) (rest : List CallFrame)
    (s args : List Value) (nm : String) (info : SyscallInfo)
    (pargs : List Value) (ln : Int) (fuel : Nat)
    (hp0 : 0 ≤ p)
    (hfetch : txt.get? p.toNat = some ⟨.CALL, some (args.length : Int), ln⟩)
    (hlk : reg.syscalls.lookup nm = some info)
    (hpre : info.preprocessor args ln = .ok pargs)
    (hnm : nm ≠ "syscall")
    (hlen : p + 1 < (txt.length : Int)) :
    ∃ img : VMImage,
      VM.run reg (fuel + 1)
          ⟨d, ⟨p, s ++ Value.syscall nm :: args, txt⟩ :: rest, g, hp, fns, none⟩ =
        .ok img ∧
      img.status = .SYSCALL ∧
      img.state.syscall = some ⟨info.syscallId, pargs⟩ ∧
      img.state.frames = ⟨p + 1, s, txt⟩ :: rest ∧
      img.state.frames ≠ [] ∧
      (∀ fuel2 : Nat, VM.run reg fuel2 img.state =
        .ok ⟨img.state, .SYSCALL, some ⟨info.syscallId, pargs⟩⟩) := by
  refine ⟨⟨⟨d, ⟨p + 1, s, txt⟩ :: rest, g, hp, fns, some ⟨info.syscallId, pargs⟩⟩,
      .SYSCALL, some ⟨info.syscallId, pargs⟩⟩,
    run_syscall_trap reg d g hp fns p txt rest s args nm info pargs ln fuel
      hp0 hfetch hlk hpre hnm hlen, rfl, rfl, rfl, by simp, ?_⟩
  intro fuel2
  have hq := runAux_pending reg fuel2
    ⟨d, ⟨p + 1, s, txt⟩ :: rest, g, hp, fns, some ⟨info.syscallId, pargs⟩⟩ rfl
  simp only [VM.run, hq, except_ok_bind, VM.serialize, statusOf]
  rfl

/-- Witness for syscall_trap_quiescent at a concrete two-instruction
program trapping on its first instruction. -/
theorem syscall_trap_quiescent_witness :
    ∃ img : VMImage,
      VM.run ⟨[], [("w", ⟨"w", fun a _ => .ok a⟩)]⟩ 1
          ⟨[], [⟨0, [Value.syscall "w"], [⟨.CALL, some 0, 0⟩, ⟨.NOP, none, 0⟩]⟩],
            [], [], [], none⟩ =
        .ok img ∧
      img.status = .SYSCALL ∧
      img.state.syscall = some ⟨"w", []⟩ ∧
      img.state.frames = [⟨1, [], [⟨.CALL, some 0, 0⟩, ⟨.NOP, none, 0⟩]⟩] ∧
      img.state.frames ≠ [] ∧
      (∀ fuel2 : Nat, VM.run ⟨[], [("w", ⟨"w", fun a _ => .ok a⟩)]⟩ fuel2 img.state =
        .ok ⟨img.state, .SYSCALL, some ⟨"w", []⟩⟩) := by
  have h := syscall_trap_quiescent ⟨[], [("w", ⟨"w", fun a _ => .ok a⟩)]⟩
    [] [] [] [] 0 [⟨.CALL, some 0, 0⟩, ⟨.NOP, none, 0⟩] [] [] [] "w"
    ⟨"w", fun a _ => .ok a⟩ [] 0 0 (by decide) rfl rfl rfl (by decide) (by decide)
  simpa using h

/-- C5 counterexample: a run-produced image with status SYSCALL on which
deserialize with a supplied return value does not reconstruct a resumed
VM: the frame stack of the image is empty (the trapping CALL was the last
instruction), so pushing the return value onto the innermost frame throws
a TypeError. -/
theorem deserialize_empty_frames_error :
    ∃ img : VMImage,
      VM.run ⟨[], [("s", ⟨"s", fun a _ => .ok a⟩)]⟩ 2
          ⟨[Value.syscall "s"],
            [⟨0, [], [⟨.DATA, some 0, 0⟩, ⟨.CALL, some 0, 1⟩]⟩], [], [], [], none⟩ =
        .ok img ∧
      img.status = .SYSCALL ∧
      VM.deserialize img (some (Value.num 3)) = .error .typeError :=
  ⟨⟨⟨[Value.syscall "s"], [], [], [], [], some ⟨"s", []⟩⟩, .SYSCALL, some ⟨"s", []⟩⟩,
    rfl, rfl, rfl⟩

/-- C5 (amended): for a SYSCALL image produced by a trap whose CALL is
not the last instruction of its frame, deserialize with a supplied return
value V reconstructs the VM, pushes V onto the innermost frame and clears
the pending syscall, yielding exactly the state of a hypothetical inline
return of V from the trapping CALL: callee and arguments consumed, V on
top, ip on the following instruction, no pending syscall. -/
theorem deserialize_resume_inline (reg : Registry) (d : List Value)
    (g : List (String × Value)) (hp : List (List Value)) (fns : List Func)
    (p : Int) (txt : List Instruction) (rest : List CallFrame)
    (s args : List Value) (nm : String) (info : SyscallInfo)
    (pargs : List Value) (ln : Int) (fuel : Nat) (V : Value)
    (hp0 : 0 ≤ p)
    (hfetch : txt.get? p.toNat = some ⟨.CALL, some (args.length : Int), ln⟩)
    (hlk : reg.syscalls.lookup nm = some info)
    (hpre : info.preprocessor args ln = .ok pargs)
    (hnm : nm ≠ "syscall")
    (hlen : p + 1 < (txt.length : Int)) :
    ∃ img : VMImage,
      VM.run reg (fuel + 1)
          ⟨d, ⟨p, s ++ Value.syscall nm :: args, txt⟩ :: rest, g, hp, fns, none⟩ =
        .ok img ∧
      img.status = .SYSCALL ∧
      VM.deserialize img (some V) =
        .ok ⟨d, ⟨p + 1, s ++ [V], txt⟩ :: rest, g, hp, fns, none⟩ := by
  refine ⟨⟨⟨d, ⟨p + 1, s, txt⟩ :: rest, g, hp, fns, some ⟨info.syscallId, pargs⟩⟩,
      .SYSCALL, some ⟨info.syscallId, pargs⟩⟩,
    run_syscall_trap reg d g hp fns p txt rest s args nm info pargs ln fuel
      hp0 hfetch hlk hpre hnm hlen, rfl, rfl⟩

/-- Witness for deserialize_resume_inline at a concrete two-instruction
program trapping on its first instruction and resumed with the number
42. -/
theorem deserialize_resume_inline_witness :
    ∃ img : VMImage,
      VM.run ⟨[], [("v", ⟨"v", fun a _ => .ok a⟩)]⟩ 1
          ⟨[], [⟨0, [Value.syscall "v"], [⟨.CALL, some 0, 0⟩, ⟨.NOP, none, 0⟩]⟩],
            [], [], [], none⟩ =
        .ok img ∧
      img.status = .SYSCALL ∧
      VM.deserialize img (some (Value.num 42)) =
        .ok ⟨[], [⟨1, [Value.num 42], [⟨.CALL, some 0, 0⟩, ⟨.NOP, none, 0⟩]⟩],
          [], [], [], none⟩ := by
  have h := deserialize_resume_inline ⟨[], [("v", ⟨"v", fun a _ => .ok a⟩)]⟩
    [] [] [] [] 0 [⟨.CALL, some 0, 0⟩, ⟨.NOP, none, 0⟩] [] [] [] "v"
    ⟨"v", fun a _ => .ok a⟩ [] 0 0 (Value.num 42) (by decide) rfl rfl rfl
    (by decide) (by decide)
  simpa using h

/-- C6 counterexample: serialize followed by deserialize with no return
value is NOT observationally neutral when a syscall is pending, because
deserialize unconditionally clears the pending syscall: the original
state replays to a SYSCALL image while the round-tripped state reports
RUNNING. -/
theorem roundtrip_pending_syscall_differs :
    (do
      let st ← VM.deserialize
        (VM.serialize ⟨[], [⟨0, [], []⟩], [], [], [], some ⟨"s", []⟩⟩) none
      VM.run reg0 0 st) ≠
    VM.run reg0 0 ⟨[], [⟨0, [], []⟩], [], [], [], some ⟨"s", []⟩⟩ := by
  decide

/-- C6 (amended): for every VM state with NO pending syscall, serialize
followed by deserialize with no return value reconstructs exactly the
same state, so any subsequent run of any budget is identical. -/
theorem roundtrip_identity (st : VM) (h : st.syscall = none) :
    VM.deserialize (VM.serialize st) none = .ok st ∧
    ∀ (reg : Registry) (fuel : Nat),
      (do
        let st2 ← VM.deserialize (VM.serialize st) none
        VM.run reg fuel st2) = VM.run reg fuel st := by
  obtain ⟨d, f, g, hp, fns, sy⟩ := st
  cases h
  exact ⟨rfl, fun reg fuel => rfl⟩

/-- Witness for roundtrip_identity at a concrete state. -/
theorem roundtrip_identity_witness :
    VM.deserialize (VM.serialize ⟨[], [⟨0, [], []⟩], [], [], [], none⟩) none =
      .ok ⟨[], [⟨0, [], []⟩], [], [], [], none⟩ ∧
    ∀ (reg : Registry) (fuel : Nat),
      (do
        let st2 ← VM.deserialize
          (VM.serialize ⟨[], [⟨0, [], []⟩], [], [], [], none⟩) none
        VM.run reg fuel st2) =
      VM.run reg fuel ⟨[], [⟨0, [], []⟩], [], [], [], none⟩ :=
  roundtrip_identity ⟨[], [⟨0, [], []⟩], [], [], [], none⟩ rfl

/-- Witness for declareVariable_semantics at concrete inputs. -/
theorem declareVariable_semantics_witness :
    (List.any [Local.mk "x" 1] (fun l => l.name == "y") = true →
      declareVariable ⟨[⟨"x", 1⟩], 1, [], []⟩ "y" 0 =
        .error .variableAlreadyDeclaredInScope) ∧
    (List.any [Local.mk "x" 1] (fun l => l.name == "y") = false →
      declareVariable ⟨[⟨"x", 1⟩], 1, [], []⟩ "y" 0 =
        .ok ⟨[⟨"x", 1⟩, ⟨"y", 1⟩], 1, [], []⟩) :=
  declareVariable_semantics ⟨[⟨"x", 1⟩], 1, [], []⟩ "y" 0 (by decide)

end EscLang
